import Mathlib

/-!
# Verification of the portfolio query-composition core

Shallow embedding of `utils/portfolioPipeline.js`:
* `createPortfolioPipeline` builds a MongoDB-style aggregation pipeline as an
  ordered list of stages; we model it twice, in lockstep with the source:
  - a *structural* layer (`Stage`, `createPortfolioPipeline`) that mirrors the
    stage list the JS function pushes, for claims about stage order/presence;
  - a *semantic* layer (`applyMatch`, `applyLookupLikes`, ..., `runAggregation`)
    that gives each stage its MongoDB meaning over an explicit database value,
    for claims about the produced view records.
* `createPaginationMetadata` is a pure arithmetic function, modelled directly.
-/

/-! ## Data model (collections read by the pipeline) -/

/-- A document of the `portfolios` collection (fields the pipeline touches). -/
structure Portfolio where
  _id : Nat
  title : String
  contents : String
  view : Nat
  images : List String
  tags : List String
  techStack : List String
  createdAt : Int
  thumbnailImage : String
  userID : String
  jobGroup : Nat
deriving DecidableEq

/-- A document of the `likes` collection; only `portfolioID` is used
(`$lookup` with `localField: "_id", foreignField: "portfolioID"`). -/
structure Like where
  portfolioID : Nat
deriving DecidableEq

/-- A document of the `techstacks` collection. -/
structure TechStack where
  skill : String
  bgColor : String
  textColor : String
  jobCode : String
deriving DecidableEq

/-- A document of the `jobgroups` collection. -/
structure JobGroup where
  _id : Nat
  job : String
deriving DecidableEq

/-- The database the aggregation runs against. -/
structure DB where
  portfolios : List Portfolio
  likes : List Like
  techstacks : List TechStack
  jobgroups : List JobGroup
deriving DecidableEq

/-- The `$match` criteria are opaque to the composer; a filter over portfolio
documents. -/
def Criteria : Type := Portfolio → Bool

/-! ## Structural layer: the stage list built by `createPortfolioPipeline` -/

/-- The two `$sort` specifications the source can push:
`{ likeCount: -1, createdAt: -1 }` (popular) or `{ createdAt: -1 }` (latest). -/
inductive SortSpec where
  | popular
  | latest
deriving DecidableEq

/-- One pipeline stage, one constructor per stage object in the source. -/
inductive Stage where
  /-- Source stage `{ $match: matchStage }` -/
  | matchStage (criteria : Criteria)
  /-- Source stage `{ $lookup: { from: "likes", localField: "_id", foreignField: "portfolioID", as: "likes" } }` -/
  | lookupLikes
  /-- Source stage `{ $addFields: { likeCount: { $size: "$likes" } } }` -/
  | addLikeCount
  /-- Source stage `{ $unwind: { path: "$techStack", preserveNullAndEmptyArrays: true } }` -/
  | unwindTechStack
  /-- Source stage `{ $lookup: { from: "techstacks", let: { techSkill: "$techStack" }, pipeline: [$match $expr $eq ["$skill","$$techSkill"]], as: "techStackInfo" } }` -/
  | lookupTechStacks
  /-- Source stage `{ $unwind: { path: "$techStackInfo", preserveNullAndEmptyArrays: true } }` -/
  | unwindTechStackInfo
  /-- Source stage `{ $group: { _id: "$_id", ...$first scalars..., techStack: { $push: {...} } } }` -/
  | group
  /-- Source stage `{ $lookup: { from: "jobgroups", ... , as: "jobGroupInfo" } }` -/
  | lookupJobGroups
  /-- Source stage `{ $unwind: { path: "$jobGroupInfo", preserveNullAndEmptyArrays: true } }` -/
  | unwindJobGroupInfo
  /-- the final `{ $project: { ... } }` -/
  | project
  /-- Source stage `{ $sort: ... }` -/
  | sort (spec : SortSpec)
  /-- Source stage `{ $skip: skip }` -/
  | skip (n : Int)
  /-- Source stage `{ $limit: limit }` -/
  | limit (n : Int)

/-- The `options` argument: `{ sort = "latest", skip = 0, limit = 15 } = options`
destructuring with defaults; an omitted field is `none`. -/
structure Options where
  sort : Option String := none
  skip : Option Int := none
  limit : Option Int := none
deriving DecidableEq

/-- Structural transcription of `createPortfolioPipeline(matchStage, options)`. -/
def createPortfolioPipeline (matchStage : Criteria := fun _ => true)
    (options : Options := {}) : List Stage :=
  let sort := options.sort.getD "latest"
  let skip := options.skip.getD 0
  let limit := options.limit.getD 15
  let pipeline : List Stage :=
    [Stage.matchStage matchStage,
     Stage.lookupLikes,
     Stage.addLikeCount,
     Stage.unwindTechStack,
     Stage.lookupTechStacks,
     Stage.unwindTechStackInfo,
     Stage.group,
     Stage.lookupJobGroups,
     Stage.unwindJobGroupInfo,
     Stage.project]
  let pipeline := pipeline ++
    (if sort == "popular" then [Stage.sort SortSpec.popular] else [Stage.sort SortSpec.latest])
  let pipeline := pipeline ++ (if skip > 0 then [Stage.skip skip] else [])
  let pipeline := pipeline ++ (if limit > 0 then [Stage.limit limit] else [])
  pipeline

/-! ## Pagination metadata -/

/-- Output of `createPaginationMetadata`. -/
structure PageMetadata where
  currentPage : Nat
  totalPages : Nat
  totalCount : Nat
  hasNextPage : Bool
  hasPrevPage : Bool
  limit : Nat
deriving DecidableEq

/-- Model of `createPaginationMetadata(totalCount, page, limit)`; `Math.ceil(totalCount / limit)`
over nonnegative integers is ceiling division, modelled as `(totalCount + limit - 1) / limit`. -/
def createPaginationMetadata (totalCount page limit : Nat) : PageMetadata :=
  let totalPages := (totalCount + limit - 1) / limit
  { currentPage := page
    totalPages := totalPages
    totalCount := totalCount
    hasNextPage := decide (page < totalPages)
    hasPrevPage := decide (page > 1)
    limit := limit }

/-! ## Structural characterization of the pipeline -/

/-- The pipeline as one closed list expression (helper shared by the
stage-order claims). -/
theorem createPortfolioPipeline_eq (c : Criteria) (o : Options) :
    createPortfolioPipeline c o =
      [Stage.matchStage c,
       Stage.lookupLikes,
       Stage.addLikeCount,
       Stage.unwindTechStack,
       Stage.lookupTechStacks,
       Stage.unwindTechStackInfo,
       Stage.group,
       Stage.lookupJobGroups,
       Stage.unwindJobGroupInfo,
       Stage.project,
       Stage.sort (if o.sort.getD "latest" == "popular" then SortSpec.popular else SortSpec.latest)]
      ++ (if o.skip.getD 0 > 0 then [Stage.skip (o.skip.getD 0)] else [])
      ++ (if o.limit.getD 15 > 0 then [Stage.limit (o.limit.getD 15)] else []) := by
  unfold createPortfolioPipeline
  by_cases hs : o.sort.getD "latest" == "popular" <;> simp [hs]

/-! ## Semantic layer: meaning of each stage over a `DB`

Row shapes follow the document shape between stages; a field an unwind or
lookup may leave absent is an `Option`.
-/

/-- Row after `$lookup` from `likes`. -/
structure LikesRow where
  portfolio : Portfolio
  likes : List Like
deriving DecidableEq

/-- Row after `$addFields: { likeCount: { $size: "$likes" } }`. -/
structure LikeCountRow where
  portfolio : Portfolio
  likes : List Like
  likeCount : Nat
deriving DecidableEq

/-- Row after `$unwind "$techStack"`: the `techStack` field now holds the
unwound element (`none` = field absent, from an empty source array); it
supersedes `portfolio.techStack`, which no later stage reads. -/
structure TechRow where
  portfolio : Portfolio
  likes : List Like
  likeCount : Nat
  techStack : Option String
deriving DecidableEq

/-- Row after `$lookup` from `techstacks`. -/
structure TechInfoRow where
  portfolio : Portfolio
  likes : List Like
  likeCount : Nat
  techStack : Option String
  techStackInfo : List TechStack
deriving DecidableEq

/-- Row after `$unwind "$techStackInfo"`. -/
structure TechResolvedRow where
  portfolio : Portfolio
  likes : List Like
  likeCount : Nat
  techStack : Option String
  techStackInfo : Option TechStack
deriving DecidableEq

/-- One element pushed by the `$group` stage's
`techStack: { $push: { skill: "$techStackInfo.skill", ... } }`; each field is
absent when `techStackInfo` is absent. -/
structure TechStackEntry where
  skill : Option String
  bgColor : Option String
  textColor : Option String
  jobCode : Option String
deriving DecidableEq

/-- Row after the `$group` stage. -/
structure GroupedRow where
  _id : Nat
  title : String
  contents : String
  view : Nat
  images : List String
  tags : List String
  techStack : List TechStackEntry
  createdAt : Int
  thumbnailImage : String
  userID : String
  likeCount : Nat
  jobGroup : Nat
deriving DecidableEq

/-- Row after `$lookup` from `jobgroups`; the lookup sub-pipeline projects
`{ _id: 0, job: 1 }`, so each joined document carries only its `job` label. -/
structure JobInfoRow where
  row : GroupedRow
  jobGroupInfo : List String
deriving DecidableEq

/-- Row after `$unwind "$jobGroupInfo"`. -/
structure JobResolvedRow where
  row : GroupedRow
  jobGroupInfo : Option String
deriving DecidableEq

/-- The final `$project` output shape (§3 View record). -/
structure View where
  _id : Nat
  title : String
  contents : String
  view : Nat
  images : List String
  tags : List String
  techStack : List TechStackEntry
  createdAt : Int
  thumbnailImage : String
  userID : String
  likeCount : Nat
  jobGroup : Option String
deriving DecidableEq

/-- Source stage `{ $match: matchStage }` over the portfolios collection. -/
def applyMatch (criteria : Criteria) (db : DB) : List Portfolio :=
  db.portfolios.filter criteria

/-- Source stage `$lookup { from: "likes", localField: "_id", foreignField: "portfolioID", as: "likes" }`. -/
def applyLookupLikes (db : DB) (rows : List Portfolio) : List LikesRow :=
  rows.map fun p =>
    { portfolio := p
      likes := db.likes.filter (fun l => l.portfolioID == p._id) }

/-- Source stage `$addFields { likeCount: { $size: "$likes" } }`. -/
def applyAddLikeCount (rows : List LikesRow) : List LikeCountRow :=
  rows.map fun r =>
    { portfolio := r.portfolio, likes := r.likes, likeCount := r.likes.length }

/-- Source stage `$unwind { path: "$techStack", preserveNullAndEmptyArrays: true }` on one
row: one row per array element; an empty array keeps the row, field absent. -/
def unwindTechStackRow (r : LikeCountRow) : List TechRow :=
  match r.portfolio.techStack with
  | [] => [{ portfolio := r.portfolio, likes := r.likes, likeCount := r.likeCount,
             techStack := none }]
  | sks => sks.map fun sk =>
      { portfolio := r.portfolio, likes := r.likes, likeCount := r.likeCount,
        techStack := some sk }

def applyUnwindTechStack (rows : List LikeCountRow) : List TechRow :=
  rows.flatMap unwindTechStackRow

/-- Source stage `$lookup { from: "techstacks", let: { techSkill: "$techStack" },
pipeline: [ { $match: { $expr: { $eq: ["$skill", "$$techSkill"] } } } ],
as: "techStackInfo" }`; `$eq` against an absent `$$techSkill` is false. -/
def applyLookupTechStacks (db : DB) (rows : List TechRow) : List TechInfoRow :=
  rows.map fun r =>
    { portfolio := r.portfolio, likes := r.likes, likeCount := r.likeCount,
      techStack := r.techStack,
      techStackInfo := db.techstacks.filter (fun t => some t.skill == r.techStack) }

/-- Source stage `$unwind { path: "$techStackInfo", preserveNullAndEmptyArrays: true }` on one row. -/
def unwindTechStackInfoRow (r : TechInfoRow) : List TechResolvedRow :=
  match r.techStackInfo with
  | [] => [{ portfolio := r.portfolio, likes := r.likes, likeCount := r.likeCount,
             techStack := r.techStack, techStackInfo := none }]
  | infos => infos.map fun t =>
      { portfolio := r.portfolio, likes := r.likes, likeCount := r.likeCount,
        techStack := r.techStack, techStackInfo := some t }

def applyUnwindTechStackInfo (rows : List TechInfoRow) : List TechResolvedRow :=
  rows.flatMap unwindTechStackInfoRow

/-- The document pushed by the `$group` stage for one input row:
`{ skill: "$techStackInfo.skill", bgColor: ..., textColor: ..., jobCode: ... }`;
a path under an absent `techStackInfo` is absent. -/
def pushEntry (r : TechResolvedRow) : TechStackEntry :=
  match r.techStackInfo with
  | some t => { skill := some t.skill, bgColor := some t.bgColor,
                textColor := some t.textColor, jobCode := some t.jobCode }
  | none => { skill := none, bgColor := none, textColor := none, jobCode := none }

/-- The `$group` output document for one key: `$first` of every scalar (the
first row of the group in input order) and `$push` over the whole group in
input order. -/
def mkGroup (rep : TechResolvedRow) (grp : List TechResolvedRow) : GroupedRow :=
  { _id := rep.portfolio._id
    title := rep.portfolio.title
    contents := rep.portfolio.contents
    view := rep.portfolio.view
    images := rep.portfolio.images
    tags := rep.portfolio.tags
    techStack := grp.map pushEntry
    createdAt := rep.portfolio.createdAt
    thumbnailImage := rep.portfolio.thumbnailImage
    userID := rep.portfolio.userID
    likeCount := rep.likeCount
    jobGroup := rep.portfolio.jobGroup }

/-- The distinct grouping keys in first-appearance order. -/
def firstSeenKeys : List Nat → List Nat
  | [] => []
  | k :: ks => k :: (firstSeenKeys ks).filter (fun x => !(x == k))

/-- Source stage `$group { _id: "$_id", ... }`: one output document per distinct `_id`. -/
def applyGroup (rows : List TechResolvedRow) : List GroupedRow :=
  (firstSeenKeys (rows.map (fun r => r.portfolio._id))).filterMap fun k =>
    (rows.find? (fun r => r.portfolio._id == k)).map fun rep =>
      mkGroup rep (rows.filter (fun r => r.portfolio._id == k))

/-- Source stage `$lookup { from: "jobgroups", let: { jobGroupId: "$jobGroup" },
pipeline: [ { $match: { $expr: { $eq: ["$_id", "$$jobGroupId"] } } },
{ $project: { _id: 0, job: 1 } } ], as: "jobGroupInfo" }`. -/
def applyLookupJobGroups (db : DB) (rows : List GroupedRow) : List JobInfoRow :=
  rows.map fun g =>
    { row := g
      jobGroupInfo := (db.jobgroups.filter (fun j => j._id == g.jobGroup)).map (fun j => j.job) }

/-- Source stage `$unwind { path: "$jobGroupInfo", preserveNullAndEmptyArrays: true }` on one row. -/
def unwindJobGroupInfoRow (r : JobInfoRow) : List JobResolvedRow :=
  match r.jobGroupInfo with
  | [] => [{ row := r.row, jobGroupInfo := none }]
  | js => js.map fun j => { row := r.row, jobGroupInfo := some j }

def applyUnwindJobGroupInfo (rows : List JobInfoRow) : List JobResolvedRow :=
  rows.flatMap unwindJobGroupInfoRow

/-- The final `$project`: keep the listed fields, `jobGroup: "$jobGroupInfo.job"`
(the looked-up documents carry `job` only, so this is the unwound label). -/
def applyProject (rows : List JobResolvedRow) : List View :=
  rows.map fun r =>
    { _id := r.row._id
      title := r.row.title
      contents := r.row.contents
      view := r.row.view
      images := r.row.images
      tags := r.row.tags
      techStack := r.row.techStack
      createdAt := r.row.createdAt
      thumbnailImage := r.row.thumbnailImage
      userID := r.row.userID
      likeCount := r.row.likeCount
      jobGroup := r.jobGroupInfo }

/-- Source stage `{ $sort: { likeCount: -1, createdAt: -1 } }` document order. -/
def popularBefore (a b : View) : Prop :=
  b.likeCount < a.likeCount ∨ (a.likeCount = b.likeCount ∧ b.createdAt ≤ a.createdAt)

instance : DecidableRel popularBefore := fun a b => by
  unfold popularBefore; exact inferInstance

/-- Source stage `{ $sort: { createdAt: -1 } }` document order. -/
def latestBefore (a b : View) : Prop :=
  b.createdAt ≤ a.createdAt

instance : DecidableRel latestBefore := fun a b => by
  unfold latestBefore; exact inferInstance

/-- Stage `$sort`: any sort into the stage's document order models MongoDB's
(otherwise unspecified) sort; we use insertion sort. -/
def applySort (spec : SortSpec) (views : List View) : List View :=
  match spec with
  | SortSpec.popular => views.insertionSort popularBefore
  | SortSpec.latest => views.insertionSort latestBefore

/-- Execute the pipeline built by `createPortfolioPipeline` through its `$sort`
stage (the optional `$skip`/`$limit` pagination stages only truncate). -/
def runAggregation (criteria : Criteria) (sort : String) (db : DB) : List View :=
  applySort (if sort == "popular" then SortSpec.popular else SortSpec.latest)
    (applyProject
      (applyUnwindJobGroupInfo
        (applyLookupJobGroups db
          (applyGroup
            (applyUnwindTechStackInfo
              (applyLookupTechStacks db
                (applyUnwindTechStack
                  (applyAddLikeCount
                    (applyLookupLikes db
                      (applyMatch criteria db))))))))))

/-! ## Generic list lemmas used to track one grouping key through the stages -/

theorem filter_map_key {α β : Type} (f : α → β) (p : β → Bool) (q : α → Bool)
    (h : ∀ a, p (f a) = q a) (l : List α) :
    (l.map f).filter p = (l.filter q).map f := by
  rw [List.filter_map]
  congr 1
  exact List.filter_congr (fun a _ => h a)

theorem filter_flatMap_key {α β : Type} (f : α → List β) (p : β → Bool) (q : α → Bool)
    (h : ∀ a, ∀ b ∈ f a, p b = q a) (l : List α) :
    (l.flatMap f).filter p = (l.filter q).flatMap f := by
  induction l with
  | nil => rfl
  | cons a l ih =>
    rw [List.flatMap_cons, List.filter_append, ih, List.filter_cons]
    cases hq : q a with
    | true =>
      have hfa : (f a).filter p = f a :=
        List.filter_eq_self.mpr (fun b hb => by rw [h a b hb, hq])
      simp [hfa]
    | false =>
      have hfa : (f a).filter p = [] :=
        List.filter_eq_nil_iff.mpr (fun b hb => by simp [h a b hb, hq])
      simp [hfa]

theorem find?_eq_head?_filter {α : Type} (p : α → Bool) (l : List α) :
    l.find? p = (l.filter p).head? := by
  induction l with
  | nil => rfl
  | cons a l ih =>
    rw [List.find?_cons, List.filter_cons]
    cases hp : p a with
    | false =>
      simp only [Bool.false_eq_true, if_false]
      exact ih
    | true => simp

theorem mem_firstSeenKeys {x : Nat} : ∀ {l : List Nat}, x ∈ firstSeenKeys l ↔ x ∈ l := by
  intro l
  induction l with
  | nil => simp [firstSeenKeys]
  | cons k ks ih =>
    simp only [firstSeenKeys, List.mem_cons, List.mem_filter]
    by_cases hx : x = k
    · simp [hx]
    · simp [hx, ih]

theorem nodup_firstSeenKeys : ∀ l : List Nat, (firstSeenKeys l).Nodup := by
  intro l
  induction l with
  | nil => simp [firstSeenKeys]
  | cons k ks ih =>
    simp only [firstSeenKeys, List.nodup_cons]
    refine ⟨fun hk => ?_, ih.filter _⟩
    have := (List.mem_filter.mp hk).2
    simp at this

/-! ## The `$group` stage, restricted to one key -/

theorem filterMap_group_filter_key (rows : List TechResolvedRow) (k : Nat) :
    ∀ keys : List Nat, keys.Nodup →
      ((keys.filterMap (fun k0 =>
          (rows.find? (fun r => r.portfolio._id == k0)).map (fun rep =>
            mkGroup rep (rows.filter (fun r => r.portfolio._id == k0))))).filter
        (fun g => g._id == k)) =
        (if k ∈ keys then
          ((rows.find? (fun r => r.portfolio._id == k)).map (fun rep =>
            mkGroup rep (rows.filter (fun r => r.portfolio._id == k)))).toList
        else []) := by
  intro keys
  induction keys with
  | nil => simp
  | cons k0 ks ih =>
    intro hnd
    obtain ⟨hk0, hnd'⟩ := List.nodup_cons.mp hnd
    cases hf : rows.find? (fun r => r.portfolio._id == k0) with
    | none =>
      rw [List.filterMap_cons_none (by rw [hf]; rfl), ih hnd']
      by_cases hek : k = k0
      · subst hek
        simp [hf, hk0]
      · simp [List.mem_cons, hek]
    | some rep =>
      have hrep := List.find?_some hf
      have hrepk : rep.portfolio._id = k0 := by simpa using hrep
      rw [List.filterMap_cons_some (by rw [hf]; rfl), List.filter_cons]
      have hgid : (mkGroup rep (rows.filter (fun r => r.portfolio._id == k0)))._id
          = rep.portfolio._id := rfl
      by_cases hek : k = k0
      · subst hek
        have hkeep : ((mkGroup rep (rows.filter (fun r => r.portfolio._id == k)))._id == k) = true := by
          rw [hgid, hrepk]; simp
        rw [ih hnd']
        simp [hkeep, hf, hk0]
      · have hdrop : ((mkGroup rep (rows.filter (fun r => r.portfolio._id == k0)))._id == k) = false := by
          rw [hgid, hrepk]
          simpa using fun hc => hek hc.symm
        rw [ih hnd']
        simp [hdrop, List.mem_cons, hek]

/-- Restricting the `$group` output to one key: the single group document built
from the rows carrying that key, or nothing when no row carries it. -/
theorem applyGroup_filter_key (rows : List TechResolvedRow) (k : Nat) :
    (applyGroup rows).filter (fun g => g._id == k) =
      (match rows.filter (fun r => r.portfolio._id == k) with
       | [] => []
       | rep :: rest => [mkGroup rep (rep :: rest)]) := by
  unfold applyGroup
  rw [filterMap_group_filter_key rows k _ (nodup_firstSeenKeys _)]
  rw [find?_eq_head?_filter]
  cases hfl : rows.filter (fun r => r.portfolio._id == k) with
  | nil =>
    have hk : k ∉ rows.map (fun r => r.portfolio._id) := by
      intro hk
      obtain ⟨r, hr, hrk⟩ := List.mem_map.mp hk
      have : r ∈ rows.filter (fun r => r.portfolio._id == k) :=
        List.mem_filter.mpr ⟨hr, by simp [hrk]⟩
      simp [hfl] at this
    simp [mem_firstSeenKeys, hk]
  | cons rep rest =>
    have hrep : rep ∈ rows.filter (fun r => r.portfolio._id == k) := by
      rw [hfl]; exact List.mem_cons_self _ _
    obtain ⟨hrmem, hrk⟩ := List.mem_filter.mp hrep
    have hk : k ∈ rows.map (fun r => r.portfolio._id) :=
      List.mem_map.mpr ⟨rep, hrmem, by simpa using hrk⟩
    simp [mem_firstSeenKeys, hk, hfl]

/-! ## Closed-form output for a single portfolio -/

/-- Outer-unwind of a possibly empty sequence: one `some` per element, or a
single `none` placeholder (`preserveNullAndEmptyArrays: true`). -/
def outerUnwind {α : Type} : List α → List (Option α)
  | [] => [none]
  | xs => xs.map some

/-- The resolution rows one unwound skill reference produces: its matching
definitions, outer-unwound. -/
def resolveSkill (db : DB) (osk : Option String) : List (Option TechStack) :=
  outerUnwind (db.techstacks.filter (fun t => some t.skill == osk))

/-- The tech-stack entry a resolution row contributes. -/
def entryOfInfo : Option TechStack → TechStackEntry
  | some t => { skill := some t.skill, bgColor := some t.bgColor,
                textColor := some t.textColor, jobCode := some t.jobCode }
  | none => { skill := none, bgColor := none, textColor := none, jobCode := none }

/-- Closed form of the rebuilt `techStack` output sequence for one portfolio
with the given skill references. -/
def techStackOutput (db : DB) (skills : List String) : List TechStackEntry :=
  ((outerUnwind skills).flatMap (resolveSkill db)).map entryOfInfo

/-- Closed form of the one view record the pipeline emits for a portfolio. -/
def expectedView (db : DB) (p : Portfolio) : View :=
  { _id := p._id
    title := p.title
    contents := p.contents
    view := p.view
    images := p.images
    tags := p.tags
    techStack := techStackOutput db p.techStack
    createdAt := p.createdAt
    thumbnailImage := p.thumbnailImage
    userID := p.userID
    likeCount := (db.likes.filter (fun l => l.portfolioID == p._id)).length
    jobGroup := ((db.jobgroups.filter (fun j => j._id == p.jobGroup)).map (fun j => j.job)).head? }

theorem outerUnwind_ne_nil {α : Type} (l : List α) : outerUnwind l ≠ [] := by
  cases l <;> simp [outerUnwind]

theorem unwindTechStackRow_eq (r : LikeCountRow) :
    unwindTechStackRow r =
      (outerUnwind r.portfolio.techStack).map (fun osk =>
        { portfolio := r.portfolio, likes := r.likes, likeCount := r.likeCount,
          techStack := osk }) := by
  unfold unwindTechStackRow outerUnwind
  cases r.portfolio.techStack with
  | nil => rfl
  | cons s sks => simp

theorem unwindTechStackInfoRow_eq (r : TechInfoRow) :
    unwindTechStackInfoRow r =
      (outerUnwind r.techStackInfo).map (fun oi =>
        { portfolio := r.portfolio, likes := r.likes, likeCount := r.likeCount,
          techStack := r.techStack, techStackInfo := oi }) := by
  unfold unwindTechStackInfoRow outerUnwind
  cases r.techStackInfo with
  | nil => rfl
  | cons t ts => simp

theorem unwindJobGroupInfoRow_eq (r : JobInfoRow) :
    unwindJobGroupInfoRow r =
      (outerUnwind r.jobGroupInfo).map (fun oj => { row := r.row, jobGroupInfo := oj }) := by
  unfold unwindJobGroupInfoRow outerUnwind
  cases r.jobGroupInfo with
  | nil => rfl
  | cons j js => simp

/-- Expanding and resolving a single matched portfolio row, in closed form. -/
theorem expansion_one (db : DB) (p : Portfolio) :
    applyUnwindTechStackInfo
      (applyLookupTechStacks db
        (applyUnwindTechStack
          (applyAddLikeCount
            (applyLookupLikes db [p])))) =
      (outerUnwind p.techStack).flatMap (fun osk =>
        (resolveSkill db osk).map (fun oi =>
          { portfolio := p
            likes := db.likes.filter (fun l => l.portfolioID == p._id)
            likeCount := (db.likes.filter (fun l => l.portfolioID == p._id)).length
            techStack := osk
            techStackInfo := oi })) := by
  unfold applyLookupLikes applyAddLikeCount applyUnwindTechStack applyLookupTechStacks
    applyUnwindTechStackInfo
  simp only [List.map_cons, List.map_nil, List.flatMap_cons, List.flatMap_nil,
    List.append_nil]
  rw [unwindTechStackRow_eq]
  simp only [List.map_map, List.flatMap_map, Function.comp]
  apply List.flatMap_congr
  intro osk hosk
  rw [unwindTechStackInfoRow_eq]
  rfl

/-! ## Per-stage facts: each stage preserves the row's portfolio identity -/

theorem mem_unwindTechStackRow {a : LikeCountRow} {b : TechRow}
    (hb : b ∈ unwindTechStackRow a) :
    b.portfolio = a.portfolio ∧ b.likes = a.likes ∧ b.likeCount = a.likeCount := by
  rw [unwindTechStackRow_eq] at hb
  obtain ⟨osk, _, rfl⟩ := List.mem_map.mp hb
  exact ⟨rfl, rfl, rfl⟩

theorem mem_unwindTechStackInfoRow {a : TechInfoRow} {b : TechResolvedRow}
    (hb : b ∈ unwindTechStackInfoRow a) :
    b.portfolio = a.portfolio ∧ b.likes = a.likes ∧ b.likeCount = a.likeCount := by
  rw [unwindTechStackInfoRow_eq] at hb
  obtain ⟨oi, _, rfl⟩ := List.mem_map.mp hb
  exact ⟨rfl, rfl, rfl⟩

theorem mem_unwindJobGroupInfoRow {a : JobInfoRow} {b : JobResolvedRow}
    (hb : b ∈ unwindJobGroupInfoRow a) : b.row = a.row := by
  rw [unwindJobGroupInfoRow_eq] at hb
  obtain ⟨oj, _, rfl⟩ := List.mem_map.mp hb
  rfl

/-! ## Pushing a one-key filter through every stage -/

theorem filter_applyLookupLikes (db : DB) (rows : List Portfolio) (k : Nat) :
    (applyLookupLikes db rows).filter (fun r => r.portfolio._id == k)
      = applyLookupLikes db (rows.filter (fun q => q._id == k)) :=
  filter_map_key _ _ _ (fun _ => rfl) rows

theorem filter_applyAddLikeCount (rows : List LikesRow) (k : Nat) :
    (applyAddLikeCount rows).filter (fun r => r.portfolio._id == k)
      = applyAddLikeCount (rows.filter (fun r => r.portfolio._id == k)) :=
  filter_map_key _ _ _ (fun _ => rfl) rows

theorem filter_applyUnwindTechStack (rows : List LikeCountRow) (k : Nat) :
    (applyUnwindTechStack rows).filter (fun r => r.portfolio._id == k)
      = applyUnwindTechStack (rows.filter (fun r => r.portfolio._id == k)) :=
  filter_flatMap_key _ _ _
    (fun _ b hb => by rw [(mem_unwindTechStackRow hb).1]) rows

theorem filter_applyLookupTechStacks (db : DB) (rows : List TechRow) (k : Nat) :
    (applyLookupTechStacks db rows).filter (fun r => r.portfolio._id == k)
      = applyLookupTechStacks db (rows.filter (fun r => r.portfolio._id == k)) :=
  filter_map_key _ _ _ (fun _ => rfl) rows

theorem filter_applyUnwindTechStackInfo (rows : List TechInfoRow) (k : Nat) :
    (applyUnwindTechStackInfo rows).filter (fun r => r.portfolio._id == k)
      = applyUnwindTechStackInfo (rows.filter (fun r => r.portfolio._id == k)) :=
  filter_flatMap_key _ _ _
    (fun _ b hb => by rw [(mem_unwindTechStackInfoRow hb).1]) rows

theorem filter_applyLookupJobGroups (db : DB) (rows : List GroupedRow) (k : Nat) :
    (applyLookupJobGroups db rows).filter (fun r => r.row._id == k)
      = applyLookupJobGroups db (rows.filter (fun g => g._id == k)) :=
  filter_map_key _ _ _ (fun _ => rfl) rows

theorem filter_applyUnwindJobGroupInfo (rows : List JobInfoRow) (k : Nat) :
    (applyUnwindJobGroupInfo rows).filter (fun r => r.row._id == k)
      = applyUnwindJobGroupInfo (rows.filter (fun r => r.row._id == k)) :=
  filter_flatMap_key _ _ _
    (fun _ b hb => by rw [mem_unwindJobGroupInfoRow hb]) rows

theorem filter_applyProject (rows : List JobResolvedRow) (k : Nat) :
    (applyProject rows).filter (fun v => v._id == k)
      = applyProject (rows.filter (fun r => r.row._id == k)) :=
  filter_map_key _ _ _ (fun _ => rfl) rows

theorem filter_applyMatch (criteria : Criteria) (db : DB) (k : Nat) :
    (applyMatch criteria db).filter (fun q => q._id == k)
      = db.portfolios.filter (fun q => (q._id == k) && criteria q) := by
  unfold applyMatch
  rw [List.filter_filter]

/-- The `$sort` stage only permutes the projected rows. -/
theorem runAggregation_perm (criteria : Criteria) (s : String) (db : DB) :
    List.Perm (runAggregation criteria s db)
      (applyProject
        (applyUnwindJobGroupInfo
          (applyLookupJobGroups db
            (applyGroup
              (applyUnwindTechStackInfo
                (applyLookupTechStacks db
                  (applyUnwindTechStack
                    (applyAddLikeCount
                      (applyLookupLikes db
                        (applyMatch criteria db)))))))))) := by
  unfold runAggregation applySort
  split <;> exact List.perm_insertionSort _ _

theorem map_pushEntry_resolve (db : DB) (p : Portfolio) (ls : List Like) (n : Nat) :
    ((outerUnwind p.techStack).flatMap (fun osk =>
        (resolveSkill db osk).map (fun oi =>
          ({ portfolio := p, likes := ls, likeCount := n, techStack := osk,
             techStackInfo := oi } : TechResolvedRow)))).map pushEntry
      = techStackOutput db p.techStack := by
  unfold techStackOutput
  rw [List.map_flatMap, List.map_flatMap]
  apply List.flatMap_congr
  intro osk _
  rw [List.map_map]
  apply List.map_congr_left
  intro oi _
  cases oi <;> rfl

theorem applyGroup_filter_key_eq (rows : List TechResolvedRow) (k : Nat)
    (rep : TechResolvedRow) (rest : List TechResolvedRow)
    (h : rows.filter (fun r => r.portfolio._id == k) = rep :: rest) :
    (applyGroup rows).filter (fun g => g._id == k) = [mkGroup rep (rep :: rest)] := by
  rw [applyGroup_filter_key, h]

/-- The three stages after `$group`, applied to a single group document. -/
theorem tail_stages_one (db : DB) (g : GroupedRow)
    (H2 : (db.jobgroups.filter (fun j => j._id == g.jobGroup)).length ≤ 1) :
    applyProject (applyUnwindJobGroupInfo (applyLookupJobGroups db [g]))
      = [{ _id := g._id, title := g.title, contents := g.contents, view := g.view,
           images := g.images, tags := g.tags, techStack := g.techStack,
           createdAt := g.createdAt, thumbnailImage := g.thumbnailImage,
           userID := g.userID, likeCount := g.likeCount,
           jobGroup := ((db.jobgroups.filter (fun j => j._id == g.jobGroup)).map
             (fun j => j.job)).head? }] := by
  unfold applyLookupJobGroups applyUnwindJobGroupInfo applyProject
  simp only [List.map_cons, List.map_nil, List.flatMap_cons, List.flatMap_nil,
    List.append_nil]
  rw [unwindJobGroupInfoRow_eq]
  rcases hjg : db.jobgroups.filter (fun j => j._id == g.jobGroup) with _ | ⟨j0, js⟩
  · rw [hjg]
    simp [outerUnwind]
  · have hjs : js = [] := by
      rw [hjg] at H2
      simpa using H2
    subst hjs
    rw [hjg]
    simp [outerUnwind]

/-- Master lemma. Fix a portfolio `p` that is the only matched portfolio
carrying its identifier and whose job-group reference matches at most one
definition. Then, for every sort mode, the rows of the aggregation output
carrying `p`'s identifier are exactly the single closed-form view record. -/
theorem runAggregation_filter_key (db : DB) (criteria : Criteria) (s : String) (p : Portfolio)
    (H1 : db.portfolios.filter (fun q => (q._id == p._id) && criteria q) = [p])
    (H2 : (db.jobgroups.filter (fun j => j._id == p.jobGroup)).length ≤ 1) :
    (runAggregation criteria s db).filter (fun v => v._id == p._id)
      = [expectedView db p] := by
  set EL := (outerUnwind p.techStack).flatMap (fun osk =>
      (resolveSkill db osk).map (fun oi =>
        ({ portfolio := p
           likes := db.likes.filter (fun l => l.portfolioID == p._id)
           likeCount := (db.likes.filter (fun l => l.portfolioID == p._id)).length
           techStack := osk
           techStackInfo := oi } : TechResolvedRow))) with hELdef
  have hR5 : (applyUnwindTechStackInfo (applyLookupTechStacks db (applyUnwindTechStack
      (applyAddLikeCount (applyLookupLikes db (applyMatch criteria db)))))).filter
        (fun r => r.portfolio._id == p._id) = EL := by
    rw [filter_applyUnwindTechStackInfo, filter_applyLookupTechStacks,
        filter_applyUnwindTechStack, filter_applyAddLikeCount, filter_applyLookupLikes,
        filter_applyMatch, H1]
    exact expansion_one db p
  have hne : EL ≠ [] := by
    intro h
    rw [hELdef, List.flatMap_eq_nil_iff] at h
    obtain ⟨osk, hosk⟩ := List.exists_mem_of_ne_nil _ (outerUnwind_ne_nil p.techStack)
    have hmap := h osk hosk
    rw [List.map_eq_nil_iff] at hmap
    exact outerUnwind_ne_nil _ hmap
  obtain ⟨rep, rest, hcons⟩ : ∃ rep rest, EL = rep :: rest := by
    cases hE : EL with
    | nil => exact absurd hE hne
    | cons a as => exact ⟨a, as, rfl⟩
  have hrepmem : rep ∈ EL := by
    rw [hcons]
    exact List.mem_cons_self _ _
  have hmemEL : ∀ r ∈ EL,
      r.portfolio = p ∧
      r.likes = db.likes.filter (fun l => l.portfolioID == p._id) ∧
      r.likeCount = (db.likes.filter (fun l => l.portfolioID == p._id)).length := by
    intro r hr
    rw [hELdef] at hr
    obtain ⟨osk, _, hro⟩ := List.mem_flatMap.mp hr
    obtain ⟨oi, _, rfl⟩ := List.mem_map.mp hro
    exact ⟨rfl, rfl, rfl⟩
  obtain ⟨hp1, hp2, hp3⟩ := hmemEL rep hrepmem
  have hout : (applyProject (applyUnwindJobGroupInfo (applyLookupJobGroups db (applyGroup
      (applyUnwindTechStackInfo (applyLookupTechStacks db (applyUnwindTechStack
        (applyAddLikeCount (applyLookupLikes db (applyMatch criteria db)))))))))).filter
        (fun v => v._id == p._id) = [expectedView db p] := by
    rw [filter_applyProject, filter_applyUnwindJobGroupInfo, filter_applyLookupJobGroups,
        applyGroup_filter_key_eq _ _ rep rest (hR5.trans hcons), ← hcons]
    have hgjob : (mkGroup rep EL).jobGroup = p.jobGroup := by
      show rep.portfolio.jobGroup = p.jobGroup
      rw [hp1]
    rw [tail_stages_one db (mkGroup rep EL) (by rw [hgjob]; exact H2)]
    simp only [mkGroup, hgjob]
    rw [hp1, hp3, hELdef, map_pushEntry_resolve]
    unfold expectedView
    rfl
  have hperm := (runAggregation_perm criteria s db).filter (fun v => v._id == p._id)
  rw [hout] at hperm
  exact List.perm_singleton.mp hperm

/-! ## Sort-order facts -/

instance : IsTotal View popularBefore :=
  ⟨fun a b => by unfold popularBefore; omega⟩

instance : IsTrans View popularBefore :=
  ⟨fun a b c h1 h2 => by unfold popularBefore at *; omega⟩

instance : IsTotal View latestBefore :=
  ⟨fun a b => by unfold latestBefore; omega⟩

instance : IsTrans View latestBefore :=
  ⟨fun a b c h1 h2 => by unfold latestBefore at *; omega⟩

theorem applySort_popular_sorted (l : List View) :
    (applySort SortSpec.popular l).Pairwise popularBefore :=
  List.sorted_insertionSort popularBefore l

theorem applySort_latest_sorted (l : List View) :
    (applySort SortSpec.latest l).Pairwise latestBefore :=
  List.sorted_insertionSort latestBefore l

theorem applySort_perm (spec : SortSpec) (l : List View) :
    List.Perm (applySort spec l) l := by
  cases spec <;> exact List.perm_insertionSort _ _

/-! ## The like count carried by every output row -/

theorem mem_applyGroup {g : GroupedRow} {rows : List TechResolvedRow}
    (hg : g ∈ applyGroup rows) :
    ∃ r ∈ rows, g._id = r.portfolio._id ∧ g.likeCount = r.likeCount := by
  unfold applyGroup at hg
  obtain ⟨k, _, hsome⟩ := List.mem_filterMap.mp hg
  cases hf : rows.find? (fun r => r.portfolio._id == k) with
  | none =>
    rw [hf] at hsome
    simp at hsome
  | some rep =>
    rw [hf] at hsome
    simp only [Option.map_some', Option.some.injEq] at hsome
    exact ⟨rep, List.mem_of_find?_eq_some hf, by rw [← hsome]; exact ⟨rfl, rfl⟩⟩

theorem likeCount_invariant (db : DB) (ps : List Portfolio) :
    ∀ r ∈ applyUnwindTechStackInfo (applyLookupTechStacks db (applyUnwindTechStack
        (applyAddLikeCount (applyLookupLikes db ps)))),
      r.likeCount = (db.likes.filter (fun l => l.portfolioID == r.portfolio._id)).length := by
  intro r hr
  obtain ⟨a, ha, hra⟩ := List.mem_flatMap.mp hr
  obtain ⟨hrp, _, hrc⟩ := mem_unwindTechStackInfoRow hra
  obtain ⟨b, hb, rfl⟩ := List.mem_map.mp ha
  obtain ⟨c, hc, hbc⟩ := List.mem_flatMap.mp hb
  obtain ⟨hbp, _, hbc2⟩ := mem_unwindTechStackRow hbc
  obtain ⟨d, hd, rfl⟩ := List.mem_map.mp hc
  obtain ⟨p0, _, rfl⟩ := List.mem_map.mp hd
  rw [hrc, hrp, hbc2, hbp]

theorem runAggregation_likeCount (criteria : Criteria) (s : String) (db : DB) (v : View)
    (hv : v ∈ runAggregation criteria s db) :
    v.likeCount = (db.likes.filter (fun l => l.portfolioID == v._id)).length := by
  have hv2 := (runAggregation_perm criteria s db).mem_iff.mp hv
  unfold applyProject at hv2
  obtain ⟨r, hr, rfl⟩ := List.mem_map.mp hv2
  unfold applyUnwindJobGroupInfo at hr
  obtain ⟨a, ha, hra⟩ := List.mem_flatMap.mp hr
  have hrow := mem_unwindJobGroupInfoRow hra
  unfold applyLookupJobGroups at ha
  obtain ⟨g, hg, rfl⟩ := List.mem_map.mp ha
  obtain ⟨r5, hr5, hgid, hgc⟩ := mem_applyGroup hg
  have hinv := likeCount_invariant db (applyMatch criteria db) r5 hr5
  show r.row.likeCount = (db.likes.filter (fun l => l.portfolioID == r.row._id)).length
  rw [hrow]
  show g.likeCount = (db.likes.filter (fun l => l.portfolioID == g._id)).length
  rw [hgid, hgc, hinv]

/-! ## The rebuilt tech-stack sequence, one entry per reference -/

theorem outerUnwind_of_ne_nil {α : Type} {l : List α} (h : l ≠ []) :
    outerUnwind l = l.map some := by
  cases l with
  | nil => exact absurd rfl h
  | cons a as => rfl

theorem some_beq_some {α : Type} [BEq α] (a b : α) :
    ((some a : Option α) == some b) = (a == b) := rfl

/-- With at most one definition per referenced skill, the rebuilt sequence has
exactly one entry per reference: the resolved definition when one matched, an
all-absent entry otherwise. -/
theorem techStackOutput_map (db : DB) (skills : List String)
    (hne : skills ≠ [])
    (huniq : ∀ sk ∈ skills, (db.techstacks.filter (fun t => t.skill == sk)).length ≤ 1) :
    techStackOutput db skills = skills.map (fun sk =>
      match (db.techstacks.filter (fun t => t.skill == sk)).head? with
      | some t => { skill := some t.skill, bgColor := some t.bgColor,
                    textColor := some t.textColor, jobCode := some t.jobCode }
      | none => { skill := none, bgColor := none, textColor := none, jobCode := none }) := by
  unfold techStackOutput
  rw [outerUnwind_of_ne_nil hne, List.flatMap_map]
  clear hne
  induction skills with
  | nil => rfl
  | cons sk sks ih =>
    rw [List.flatMap_cons, List.map_append, List.map_cons,
      ih (fun x hx => huniq x (List.mem_cons_of_mem _ hx))]
    have hbr : db.techstacks.filter (fun t => some t.skill == some sk)
        = db.techstacks.filter (fun t => t.skill == sk) :=
      List.filter_congr (fun t _ => rfl)
    have hsk := huniq sk (List.mem_cons_self _ _)
    rcases hflt : db.techstacks.filter (fun t => t.skill == sk) with _ | ⟨t0, ts⟩
    · show ((resolveSkill db (some sk)).map entryOfInfo) ++ _ = _
      unfold resolveSkill
      rw [hbr, hflt]
      rfl
    · have hts : ts = [] := by
        rw [hflt] at hsk
        simpa using hsk
      subst hts
      show ((resolveSkill db (some sk)).map entryOfInfo) ++ _ = _
      unfold resolveSkill
      rw [hbr, hflt]
      rfl

/-! ## Concrete data used by the witnesses and the counterexample -/

/-- The match-all criteria (`matchStage = {}`). -/
def critAll : Criteria := fun _ => true

/-- A `techstacks` document for `"go"`; no document exists for `"rust"`. -/
def goDef : TechStack :=
  { skill := "go", bgColor := "#00ADD8", textColor := "#FFFFFF", jobCode := "BE" }

def jobGroupDev : JobGroup := { _id := 7, job := "developer" }

/-- A portfolio referencing `["go", "rust"]`, with two likes in `exDB`. -/
def portfolioGoRust : Portfolio :=
  { _id := 1, title := "t1", contents := "c1", view := 3, images := ["img"],
    tags := ["tag"], techStack := ["go", "rust"], createdAt := 100,
    thumbnailImage := "thumb", userID := "u1", jobGroup := 7 }

/-- A portfolio with no tech-stack references and an unresolvable job group. -/
def portfolioPlain : Portfolio :=
  { _id := 2, title := "t2", contents := "c2", view := 0, images := [],
    tags := [], techStack := [], createdAt := 50,
    thumbnailImage := "thumb2", userID := "u2", jobGroup := 99 }

def exDB : DB :=
  { portfolios := [portfolioGoRust, portfolioPlain]
    likes := [{ portfolioID := 1 }, { portfolioID := 1 }]
    techstacks := [goDef]
    jobgroups := [jobGroupDev] }

/-! ## Ceiling-division helper facts for the pagination metadata -/

theorem lt_div_add_one_mul (a : Nat) {b : Nat} (hb : 0 < b) :
    a < (a / b + 1) * b :=
  calc a = b * (a / b) + a % b := (Nat.div_add_mod a b).symm
    _ < b * (a / b) + b := Nat.add_lt_add_left (Nat.mod_lt a hb) _
    _ = b * (a / b + 1) := (Nat.mul_succ b _).symm
    _ = (a / b + 1) * b := Nat.mul_comm _ _

theorem ceilDiv_mul_ge {t l : Nat} (hl : 0 < l) (ht : 0 < t) :
    t ≤ ((t + l - 1) / l) * l := by
  have heq : t + l - 1 = (t - 1) + l := by omega
  rw [heq, Nat.add_div_right _ hl]
  have := lt_div_add_one_mul (t - 1) hl
  omega

theorem ceilDiv_pred_mul_lt {t l : Nat} (hl : 0 < l) (ht : 0 < t) :
    ((t + l - 1) / l - 1) * l < t := by
  have heq : t + l - 1 = (t - 1) + l := by omega
  rw [heq, Nat.add_div_right _ hl]
  have h1 : (t - 1) / l * l ≤ t - 1 := Nat.div_mul_le_self _ _
  rw [Nat.succ_sub_one]
  exact Nat.lt_of_le_of_lt h1 (Nat.sub_lt ht Nat.one_pos)

/-! ## Claim theorems -/

/-- C8: for every totalCount ≥ 0, page ≥ 1, limit > 0, `createPaginationMetadata`
returns currentPage = page, totalCount, limit unchanged, totalPages =
ceiling(totalCount / limit) (characterized by `totalCount ≤ totalPages * limit`
with `(totalPages - 1) * limit < totalCount`, and 0 when totalCount = 0),
hasNextPage = (page < totalPages), hasPrevPage = (page > 1); in particular
(0,1,15) gives totalPages 0 with both flags false, (100,3,15) gives totalPages 7
with both flags true, and (15,1,15) gives totalPages 1 with both flags false. -/
theorem createPaginationMetadata_correct (t p l : Nat) (hl : 0 < l) :
    (createPaginationMetadata t p l).currentPage = p
    ∧ (createPaginationMetadata t p l).totalCount = t
    ∧ (createPaginationMetadata t p l).limit = l
    ∧ t ≤ (createPaginationMetadata t p l).totalPages * l
    ∧ (0 < t → ((createPaginationMetadata t p l).totalPages - 1) * l < t)
    ∧ (t = 0 → (createPaginationMetadata t p l).totalPages = 0)
    ∧ (createPaginationMetadata t p l).hasNextPage
        = decide (p < (createPaginationMetadata t p l).totalPages)
    ∧ (createPaginationMetadata t p l).hasPrevPage = decide (p > 1)
    ∧ createPaginationMetadata 0 1 15
        = { currentPage := 1, totalPages := 0, totalCount := 0,
            hasNextPage := false, hasPrevPage := false, limit := 15 }
    ∧ createPaginationMetadata 100 3 15
        = { currentPage := 3, totalPages := 7, totalCount := 100,
            hasNextPage := true, hasPrevPage := true, limit := 15 }
    ∧ createPaginationMetadata 15 1 15
        = { currentPage := 1, totalPages := 1, totalCount := 15,
            hasNextPage := false, hasPrevPage := false, limit := 15 } := by
  refine ⟨rfl, rfl, rfl, ?_, ?_, ?_, rfl, rfl, by decide, by decide, by decide⟩
  · rcases Nat.eq_zero_or_pos t with ht | ht
    · subst ht
      exact Nat.zero_le _
    · exact ceilDiv_mul_ge hl ht
  · intro ht
    exact ceilDiv_pred_mul_lt hl ht
  · intro ht
    subst ht
    show (0 + l - 1) / l = 0
    rw [Nat.zero_add]
    exact Nat.div_eq_of_lt (by omega)

/-- C8 witness: the general theorem applied at (100, 3, 15). -/
theorem createPaginationMetadata_correct_witness :
    (createPaginationMetadata 100 3 15).currentPage = 3
    ∧ (createPaginationMetadata 100 3 15).totalCount = 100
    ∧ (createPaginationMetadata 100 3 15).limit = 15
    ∧ 100 ≤ (createPaginationMetadata 100 3 15).totalPages * 15
    ∧ (0 < 100 → ((createPaginationMetadata 100 3 15).totalPages - 1) * 15 < 100)
    ∧ (100 = 0 → (createPaginationMetadata 100 3 15).totalPages = 0)
    ∧ (createPaginationMetadata 100 3 15).hasNextPage
        = decide (3 < (createPaginationMetadata 100 3 15).totalPages)
    ∧ (createPaginationMetadata 100 3 15).hasPrevPage = decide (3 > 1)
    ∧ createPaginationMetadata 0 1 15
        = { currentPage := 1, totalPages := 0, totalCount := 0,
            hasNextPage := false, hasPrevPage := false, limit := 15 }
    ∧ createPaginationMetadata 100 3 15
        = { currentPage := 3, totalPages := 7, totalCount := 100,
            hasNextPage := true, hasPrevPage := true, limit := 15 }
    ∧ createPaginationMetadata 15 1 15
        = { currentPage := 1, totalPages := 1, totalCount := 15,
            hasNextPage := false, hasPrevPage := false, limit := 15 } :=
  createPaginationMetadata_correct 100 3 15 (by decide)

/-- C4: for every (matchCriteria, options), the sort stage (at index 10, after
the collapse at index 6 and the projection at index 9) is the likeCount-then-
createdAt descending specification exactly when `options.sort` is `"popular"`
and the createdAt-descending one otherwise; and each specification indeed
orders its input that way: the popular sort is pairwise ordered by likeCount
descending with ties broken by createdAt descending, the latest sort by
createdAt descending, and both only permute their input. -/
theorem sort_stage_selection_and_order (c : Criteria) (o : Options) (l : List View) :
    (createPortfolioPipeline c o)[10]? =
        some (Stage.sort (if o.sort.getD "latest" == "popular"
          then SortSpec.popular else SortSpec.latest))
    ∧ (createPortfolioPipeline c o)[6]? = some Stage.group
    ∧ (createPortfolioPipeline c o)[9]? = some Stage.project
    ∧ (applySort SortSpec.popular l).Pairwise (fun a b =>
        b.likeCount < a.likeCount ∨ (a.likeCount = b.likeCount ∧ b.createdAt ≤ a.createdAt))
    ∧ (applySort SortSpec.latest l).Pairwise (fun a b => b.createdAt ≤ a.createdAt)
    ∧ List.Perm (applySort SortSpec.popular l) l
    ∧ List.Perm (applySort SortSpec.latest l) l := by
  refine ⟨?_, ?_, ?_, applySort_popular_sorted l, applySort_latest_sorted l,
    applySort_perm _ l, applySort_perm _ l⟩
  · rw [createPortfolioPipeline_eq,
      List.getElem?_append_left (by rw [List.length_append]; simp; omega),
      List.getElem?_append_left (by simp)]
    rfl
  · rw [createPortfolioPipeline_eq,
      List.getElem?_append_left (by rw [List.length_append]; simp; omega),
      List.getElem?_append_left (by simp)]
    rfl
  · rw [createPortfolioPipeline_eq,
      List.getElem?_append_left (by rw [List.length_append]; simp; omega),
      List.getElem?_append_left (by simp)]
    rfl

/-- C5: the stage list is deterministic and fixed apart from its last two
optional stages: after the fixed 11-stage prefix, a skip stage is present iff
skip > 0 and a limit stage (after it, last) is present iff limit > 0, with
omitted options defaulting to skip 0 (no skip stage) and limit 15. -/
theorem pagination_stage_presence (c : Criteria) (o : Options) :
    (createPortfolioPipeline c o =
      (createPortfolioPipeline c o).take 11
      ++ (if o.skip.getD 0 > 0 then [Stage.skip (o.skip.getD 0)] else [])
      ++ (if o.limit.getD 15 > 0 then [Stage.limit (o.limit.getD 15)] else []))
    ∧ ((createPortfolioPipeline c o).take 11).length = 11
    ∧ createPortfolioPipeline c {} = (createPortfolioPipeline c {}).take 11 ++ [Stage.limit 15] := by
  have htake : (createPortfolioPipeline c o).take 11 =
      [Stage.matchStage c, Stage.lookupLikes, Stage.addLikeCount, Stage.unwindTechStack,
       Stage.lookupTechStacks, Stage.unwindTechStackInfo, Stage.group, Stage.lookupJobGroups,
       Stage.unwindJobGroupInfo, Stage.project,
       Stage.sort (if o.sort.getD "latest" == "popular" then SortSpec.popular
         else SortSpec.latest)] := by
    rw [createPortfolioPipeline_eq, List.append_assoc, List.take_left' (by simp)]
  refine ⟨?_, by rw [htake]; rfl, ?_⟩
  · rw [htake, createPortfolioPipeline_eq, List.append_assoc]
  · rfl

/-- C6: the pipeline begins with the filter stage carrying the criteria
unmodified, followed in fixed order by the like lookup and count, the
tech-stack expansion, resolution and resolution expansion, the collapse, the
job-group lookup and expansion, the projection, the sort, and then only the
optional skip and limit stages. -/
theorem stage_order_fixed (c : Criteria) (o : Options) :
    (createPortfolioPipeline c o).head? = some (Stage.matchStage c)
    ∧ createPortfolioPipeline c o =
      [Stage.matchStage c,
       Stage.lookupLikes,
       Stage.addLikeCount,
       Stage.unwindTechStack,
       Stage.lookupTechStacks,
       Stage.unwindTechStackInfo,
       Stage.group,
       Stage.lookupJobGroups,
       Stage.unwindJobGroupInfo,
       Stage.project,
       Stage.sort (if o.sort.getD "latest" == "popular" then SortSpec.popular
         else SortSpec.latest)]
      ++ (if o.skip.getD 0 > 0 then [Stage.skip (o.skip.getD 0)] else [])
      ++ (if o.limit.getD 15 > 0 then [Stage.limit (o.limit.getD 15)] else []) := by
  refine ⟨?_, createPortfolioPipeline_eq c o⟩
  rw [createPortfolioPipeline_eq]
  rfl

/-- C10: any `options.sort` value other than the exact string `"popular"` —
including unrecognized strings, not only `"latest"` — produces the
createdAt-descending sort stage. -/
theorem non_popular_sort_is_latest (c : Criteria) (o : Options)
    (h : o.sort.getD "latest" ≠ "popular") :
    (createPortfolioPipeline c o)[10]? = some (Stage.sort SortSpec.latest) := by
  rw [createPortfolioPipeline_eq,
    List.getElem?_append_left (by rw [List.length_append]; simp; omega),
    List.getElem?_append_left (by simp)]
  simp only [List.getElem?_cons_succ, List.getElem?_cons_zero, Option.some.injEq]
  rw [if_neg (by simpa using h)]

/-- C10 witness: an unrecognized sort string selects the createdAt sort. -/
theorem non_popular_sort_is_latest_witness :
    (createPortfolioPipeline critAll
      { sort := some "weird", skip := none, limit := none })[10]?
      = some (Stage.sort SortSpec.latest) :=
  non_popular_sort_is_latest critAll
    { sort := some "weird", skip := none, limit := none } (by decide)

/-- C1: for a Portfolio whose tech-stack skills are `["go", "rust"]` where only
`"go"` has a matching definition (and which is the only matched portfolio
carrying its identifier, with at most one job-group match), the pipeline yields
exactly one output row for that Portfolio, whose techStack sequence has exactly
the 2 entries in original order: the first populated from the matched
definition, the second with all fields absent. -/
theorem collapse_go_rust (db : DB) (criteria : Criteria) (s : String)
    (p : Portfolio) (d : TechStack)
    (H1 : db.portfolios.filter (fun q => (q._id == p._id) && criteria q) = [p])
    (H2 : (db.jobgroups.filter (fun j => j._id == p.jobGroup)).length ≤ 1)
    (hskills : p.techStack = ["go", "rust"])
    (hgo : db.techstacks.filter (fun t => t.skill == "go") = [d])
    (hrust : db.techstacks.filter (fun t => t.skill == "rust") = []) :
    (runAggregation criteria s db).countP (fun v => v._id == p._id) = 1
    ∧ ∀ v ∈ runAggregation criteria s db, v._id = p._id →
        v.techStack = [{ skill := some d.skill, bgColor := some d.bgColor,
                         textColor := some d.textColor, jobCode := some d.jobCode },
                       { skill := none, bgColor := none, textColor := none, jobCode := none }] := by
  have hmain := runAggregation_filter_key db criteria s p H1 H2
  constructor
  · rw [List.countP_eq_length_filter, hmain]
    rfl
  · intro v hv hvid
    have hvf : v ∈ (runAggregation criteria s db).filter (fun v => v._id == p._id) :=
      List.mem_filter.mpr ⟨hv, by simp [hvid]⟩
    rw [hmain] at hvf
    have hveq : v = expectedView db p := by simpa using hvf
    subst hveq
    show techStackOutput db p.techStack = _
    rw [hskills]
    have hgo2 : db.techstacks.filter (fun t => some t.skill == some "go") = [d] :=
      (List.filter_congr (fun t _ => rfl)).trans hgo
    have hrust2 : db.techstacks.filter (fun t => some t.skill == some "rust") = [] :=
      (List.filter_congr (fun t _ => rfl)).trans hrust
    show ((outerUnwind ["go", "rust"]).flatMap (resolveSkill db)).map entryOfInfo = _
    rw [show (outerUnwind ["go", "rust"] : List (Option String))
      = [some "go", some "rust"] from rfl]
    rw [List.flatMap_cons, List.flatMap_cons, List.flatMap_nil, List.append_nil]
    unfold resolveSkill
    rw [hgo2, hrust2]
    rfl

/-- C1 witness at the concrete database `exDB`. -/
theorem collapse_go_rust_witness :
    (runAggregation critAll "latest" exDB).countP (fun v => v._id == portfolioGoRust._id) = 1
    ∧ ∀ v ∈ runAggregation critAll "latest" exDB, v._id = portfolioGoRust._id →
        v.techStack = [{ skill := some goDef.skill, bgColor := some goDef.bgColor,
                         textColor := some goDef.textColor, jobCode := some goDef.jobCode },
                       { skill := none, bgColor := none, textColor := none, jobCode := none }] :=
  collapse_go_rust exDB critAll "latest" portfolioGoRust goDef (by decide) (by decide)
    (by decide) (by decide) (by decide)

/-- C3: every view record the pipeline outputs carries a likeCount equal to the
exact number of Like records referencing its portfolio identifier — 0 when
there are none, N when there are N — irrespective of the portfolio's tech-stack
size, since the count is attached before the expansion and carried through the
collapse by `$first`. -/
theorem pipeline_likeCount_exact (criteria : Criteria) (s : String) (db : DB) (v : View)
    (hv : v ∈ runAggregation criteria s db) :
    v.likeCount = (db.likes.filter (fun l => l.portfolioID == v._id)).length :=
  runAggregation_likeCount criteria s db v hv

/-- C3 witness: in `exDB` the portfolio with two likes and two tech-stack
skills reports likeCount 2 (not inflated by the expansion). -/
theorem pipeline_likeCount_exact_witness :
    (expectedView exDB portfolioGoRust).likeCount =
      (exDB.likes.filter (fun l =>
        l.portfolioID == (expectedView exDB portfolioGoRust)._id)).length :=
  pipeline_likeCount_exact critAll "latest" exDB (expectedView exDB portfolioGoRust)
    (by decide)

/-- C9: a Portfolio whose tech-stack skill sequence is empty (and which is the
only matched portfolio carrying its identifier, with at most one job-group
match) produces exactly one output row whose techStack is a one-element
sequence holding a single all-absent entry — not an empty sequence. -/
theorem empty_techStack_single_entry (db : DB) (criteria : Criteria) (s : String)
    (p : Portfolio)
    (H1 : db.portfolios.filter (fun q => (q._id == p._id) && criteria q) = [p])
    (H2 : (db.jobgroups.filter (fun j => j._id == p.jobGroup)).length ≤ 1)
    (hempty : p.techStack = []) :
    (runAggregation criteria s db).countP (fun v => v._id == p._id) = 1
    ∧ ∀ v ∈ runAggregation criteria s db, v._id = p._id →
        v.techStack = [{ skill := none, bgColor := none, textColor := none, jobCode := none }] := by
  have hmain := runAggregation_filter_key db criteria s p H1 H2
  constructor
  · rw [List.countP_eq_length_filter, hmain]
    rfl
  · intro v hv hvid
    have hvf : v ∈ (runAggregation criteria s db).filter (fun v => v._id == p._id) :=
      List.mem_filter.mpr ⟨hv, by simp [hvid]⟩
    rw [hmain] at hvf
    have hveq : v = expectedView db p := by simpa using hvf
    subst hveq
    show techStackOutput db p.techStack = _
    rw [hempty]
    show ((outerUnwind ([] : List String)).flatMap (resolveSkill db)).map entryOfInfo = _
    rw [show (outerUnwind ([] : List String)) = [none] from rfl]
    rw [List.flatMap_cons, List.flatMap_nil, List.append_nil]
    unfold resolveSkill
    rw [show db.techstacks.filter (fun t => some t.skill == (none : Option String)) = []
      from List.filter_eq_nil_iff.mpr (fun t _ h => Bool.noConfusion h)]
    rfl

/-- C9 witness at the concrete database `exDB` (portfolio with no skills). -/
theorem empty_techStack_single_entry_witness :
    (runAggregation critAll "latest" exDB).countP (fun v => v._id == portfolioPlain._id) = 1
    ∧ ∀ v ∈ runAggregation critAll "latest" exDB, v._id = portfolioPlain._id →
        v.techStack = [{ skill := none, bgColor := none, textColor := none, jobCode := none }] :=
  empty_techStack_single_entry exDB critAll "latest" portfolioPlain (by decide) (by decide)
    (by decide)

/-- C2 counterexample: in `exDB` the portfolio references `["go", "rust"]` and
only `"go"` matches a definition, yet its output tech-stack sequence is not
made of matched entries only — the unmatched `"rust"` reference contributes an
entry (with absent fields), refuting "unmatched references never contribute". -/
theorem unmatched_never_contributes_cex :
    ¬ (∀ v ∈ runAggregation critAll "latest" exDB, v._id = portfolioGoRust._id →
        v.techStack.length = 1 ∧ ∀ e ∈ v.techStack, e.skill.isSome = true) := by
  decide

/-- An empty reference list produces the single all-absent placeholder entry. -/
theorem techStackOutput_nil (db : DB) :
    techStackOutput db [] =
      [{ skill := none, bgColor := none, textColor := none, jobCode := none }] := by
  show ((outerUnwind ([] : List String)).flatMap (resolveSkill db)).map entryOfInfo = _
  rw [show (outerUnwind ([] : List String)) = [none] from rfl]
  rw [List.flatMap_cons, List.flatMap_nil, List.append_nil]
  unfold resolveSkill
  rw [show db.techstacks.filter (fun t => some t.skill == (none : Option String)) = []
    from List.filter_eq_nil_iff.mpr (fun t _ h => Bool.noConfusion h)]
  rfl

/-- C2 (amended): for every Portfolio processed by the pipeline (the only
matched one carrying its identifier, with at most one definition per referenced
skill and at most one job-group match), when the Portfolio has at least one
tech-stack reference the output sequence has exactly one entry per reference —
populated from the matching definition when one matched, with all fields absent
otherwise — and when it has none, the output is the single all-absent
placeholder entry; in both cases unmatched references are not omitted. -/
theorem techStack_entry_per_reference (db : DB) (criteria : Criteria) (s : String)
    (p : Portfolio)
    (H1 : db.portfolios.filter (fun q => (q._id == p._id) && criteria q) = [p])
    (H2 : (db.jobgroups.filter (fun j => j._id == p.jobGroup)).length ≤ 1)
    (huniq : ∀ sk ∈ p.techStack, (db.techstacks.filter (fun t => t.skill == sk)).length ≤ 1) :
    ∀ v ∈ runAggregation criteria s db, v._id = p._id →
      v.techStack =
        (if p.techStack = [] then
          [{ skill := none, bgColor := none, textColor := none, jobCode := none }]
        else p.techStack.map (fun sk =>
          match (db.techstacks.filter (fun t => t.skill == sk)).head? with
          | some t => { skill := some t.skill, bgColor := some t.bgColor,
                        textColor := some t.textColor, jobCode := some t.jobCode }
          | none => { skill := none, bgColor := none, textColor := none, jobCode := none }))
      ∧ (p.techStack ≠ [] → v.techStack.length = p.techStack.length) := by
  intro v hv hvid
  have hmain := runAggregation_filter_key db criteria s p H1 H2
  have hvf : v ∈ (runAggregation criteria s db).filter (fun v => v._id == p._id) :=
    List.mem_filter.mpr ⟨hv, by simp [hvid]⟩
  rw [hmain] at hvf
  have hveq : v = expectedView db p := by simpa using hvf
  subst hveq
  by_cases hts : p.techStack = []
  · rw [if_pos hts]
    refine ⟨?_, fun hne => absurd hts hne⟩
    show techStackOutput db p.techStack = _
    rw [hts, techStackOutput_nil]
  · rw [if_neg hts]
    have hmap : (expectedView db p).techStack = p.techStack.map (fun sk =>
        match (db.techstacks.filter (fun t => t.skill == sk)).head? with
        | some t => { skill := some t.skill, bgColor := some t.bgColor,
                      textColor := some t.textColor, jobCode := some t.jobCode }
        | none => { skill := none, bgColor := none, textColor := none, jobCode := none }) := by
      show techStackOutput db p.techStack = _
      exact techStackOutput_map db p.techStack hts huniq
    exact ⟨hmap, fun _ => by rw [hmap, List.length_map]⟩

/-- C2 (amended) witness at the concrete database `exDB`, instantiated at its
output row for the go/rust portfolio. -/
theorem techStack_entry_per_reference_witness :
    (expectedView exDB portfolioGoRust).techStack =
      (if portfolioGoRust.techStack = [] then
        [{ skill := none, bgColor := none, textColor := none, jobCode := none }]
      else portfolioGoRust.techStack.map (fun sk =>
        match (exDB.techstacks.filter (fun t => t.skill == sk)).head? with
        | some t => { skill := some t.skill, bgColor := some t.bgColor,
                      textColor := some t.textColor, jobCode := some t.jobCode }
        | none => { skill := none, bgColor := none, textColor := none, jobCode := none }))
    ∧ (portfolioGoRust.techStack ≠ [] →
        (expectedView exDB portfolioGoRust).techStack.length
          = portfolioGoRust.techStack.length) :=
  techStack_entry_per_reference exDB critAll "latest" portfolioGoRust (by decide) (by decide)
    (by decide) (expectedView exDB portfolioGoRust) (by decide) (by decide)

/-- C7: every expansion is outer: a row with an empty tech-stack array survives
its unwind as one row with the field absent; a row whose skill matched no
definition survives the resolution unwind as one row with the definition field
absent; and a Portfolio whose jobGroup matches no JobGroupDefinition still
appears in the output, with its jobGroup field absent (the field otherwise
carrying only the resolved label). -/
theorem outer_expansion_semantics
    (r1 : LikeCountRow) (h1 : r1.portfolio.techStack = [])
    (r2 : TechInfoRow) (h2 : r2.techStackInfo = [])
    (db : DB) (criteria : Criteria) (s : String) (p : Portfolio)
    (H1 : db.portfolios.filter (fun q => (q._id == p._id) && criteria q) = [p])
    (hjg : db.jobgroups.filter (fun j => j._id == p.jobGroup) = []) :
    unwindTechStackRow r1 = [{ portfolio := r1.portfolio, likes := r1.likes,
                               likeCount := r1.likeCount, techStack := none }]
    ∧ unwindTechStackInfoRow r2 = [{ portfolio := r2.portfolio, likes := r2.likes,
                                     likeCount := r2.likeCount, techStack := r2.techStack,
                                     techStackInfo := none }]
    ∧ (runAggregation criteria s db).countP (fun v => v._id == p._id) = 1
    ∧ ∀ v ∈ runAggregation criteria s db, v._id = p._id → v.jobGroup = none := by
  have H2 : (db.jobgroups.filter (fun j => j._id == p.jobGroup)).length ≤ 1 := by
    rw [hjg]
    exact Nat.zero_le 1
  have hmain := runAggregation_filter_key db criteria s p H1 H2
  refine ⟨?_, ?_, ?_, ?_⟩
  · unfold unwindTechStackRow
    rw [h1]
  · unfold unwindTechStackInfoRow
    rw [h2]
  · rw [List.countP_eq_length_filter, hmain]
    rfl
  · intro v hv hvid
    have hvf : v ∈ (runAggregation criteria s db).filter (fun v => v._id == p._id) :=
      List.mem_filter.mpr ⟨hv, by simp [hvid]⟩
    rw [hmain] at hvf
    have hveq : v = expectedView db p := by simpa using hvf
    subst hveq
    show ((db.jobgroups.filter (fun j => j._id == p.jobGroup)).map (fun j => j.job)).head? = none
    rw [hjg]
    rfl

/-- C7 witness: concrete rows and the concrete database `exDB`, whose
no-skill portfolio references the unresolvable job group 99. -/
theorem outer_expansion_semantics_witness :
    unwindTechStackRow { portfolio := portfolioPlain, likes := [], likeCount := 0 }
      = [{ portfolio := portfolioPlain, likes := [], likeCount := 0, techStack := none }]
    ∧ unwindTechStackInfoRow ⟨portfolioPlain, [], 0, some "go", []⟩
      = [{ portfolio := portfolioPlain, likes := [], likeCount := 0,
           techStack := some "go", techStackInfo := none }]
    ∧ (runAggregation critAll "latest" exDB).countP (fun v => v._id == portfolioPlain._id) = 1
    ∧ ∀ v ∈ runAggregation critAll "latest" exDB, v._id = portfolioPlain._id →
        v.jobGroup = none :=
  outer_expansion_semantics _ (by decide) _ (by decide) exDB critAll "latest" portfolioPlain
    (by decide) (by decide)
